import Mathlib

/-!
Verification of the pmem physical-memory management core (buddy heap,
page-frame allocator, Sv39-style page tables) against its design spec.

Machine integers (usize, u8, i64 page-table entries) are modelled as Nat
holding the two's-complement bit pattern, with an explicit reduction
modulo 2 ^ 64 wherever the source's arithmetic can wrap.  Raw memory that
holds page tables is modelled as a function from physical base address
to table contents; intrusive free lists are modelled as the list of
block addresses forming the pointer chain.
-/

set_option maxRecDepth 4000000

/-- The modulus of a 64-bit machine word. -/
def U64MOD : Nat := 2 ^ 64

/-- The largest value of a 64-bit machine word (usize::MAX on the target). -/
def usize_max : Nat := 2 ^ 64 - 1

/-- Bitwise complement within 64 bits: subtracting from the all-ones word
flips every bit, which models the source's unary NOT on usize and on i64
bit patterns. -/
def u64not (x : Nat) : Nat := usize_max - x

/-- Fuel-driven floor base-2 logarithm (the fuel only makes the recursion
structural; with fuel at least n the result is the usual floor log2).
Models the log2 method the heap code takes from the external pcore math
library. -/
def log2fuel : Nat → Nat → Nat
  | 0, _ => 0
  | f + 1, n => if 2 ≤ n then log2fuel f (n / 2) + 1 else 0

/-- Floor base-2 logarithm, standard semantics of the external log2 helper. -/
def log2 (n : Nat) : Nat := log2fuel n n

/-- Power-of-two test, standard semantics of is_power_of_two / is_po2:
nonzero and no carry interaction between n and n - 1. -/
def is_po2 (n : Nat) : Bool := n != 0 && (n &&& (n - 1)) == 0

/-- Fuel-driven next-power-of-two helper (fuel n is always enough). -/
def nextPo2Aux : Nat → Nat → Nat
  | 0, _ => 1
  | f + 1, n => if n ≤ 1 then 1 else 2 * nextPo2Aux f ((n + 1) / 2)

/-- Smallest power of two greater than or equal to n (1 for n = 0),
standard semantics of next_power_of_two / next_po2 from the external
math library. -/
def next_po2 (n : Nat) : Nat := nextPo2Aux n n

/-- Rounding size up to the nearest multiple of align (align positive);
this is the quantity the Layout documentation talks about. -/
def align_up (size align : Nat) : Nat := (size + align - 1) / align * align

/- ------------------------------------------------------------------ -/
/- Layout (src/allocations/layout.rs)                                  -/
/- ------------------------------------------------------------------ -/

/-- A (size, alignment) descriptor; Layout from src/allocations/layout.rs.
The source keeps align in a NonZeroUsize, but every checked constructor
rejects align = 0 before building the value, so plain Nat fields model
the constructed values faithfully. -/
structure Layout where
  size : Nat
  align : Nat
deriving DecidableEq

/-- Layout::from_size_align from src/allocations/layout.rs lines 46-73,
translated literally.  The first test rejects any align that is not a
power of two (align = 0 included).  The second test is the source's
literal overflow test `size > usize::MAX`, which no usize value can
satisfy: the source checks the summation-overflow condition its own
comment derives nowhere. -/
def Layout.from_size_align (size align : Nat) : Option Layout :=
  if !(is_po2 align) then none
  else if usize_max < size then none
  else some ⟨size, align⟩

/- ------------------------------------------------------------------ -/
/- Page-table entries (src/allocations/paging.rs)                      -/
/- ------------------------------------------------------------------ -/

/-- A page-table entry; Entry from src/allocations/paging.rs line 275.
The source stores an i64; the field holds its 64-bit two's-complement
bit pattern. -/
structure Entry where
  entry : Nat
deriving DecidableEq

/-- Entry::is_valid (paging.rs lines 285-288): the V bit is bit 0
(EntryFlags::Valid = 1 << 0). -/
def Entry.is_valid (e : Entry) : Bool := e.entry &&& 1 != 0

/-- Entry::is_invalid (paging.rs lines 293-296). -/
def Entry.is_invalid (e : Entry) : Bool := !e.is_valid

/-- Entry::is_leaf (paging.rs lines 301-304): one or more of the R/W/X
bits (mask 0xe) set. -/
def Entry.is_leaf (e : Entry) : Bool := e.entry &&& 0xe != 0

/-- Entry::is_branch (paging.rs lines 309-312). -/
def Entry.is_branch (e : Entry) : Bool := !e.is_leaf

/- ------------------------------------------------------------------ -/
/- Theorems for C8 and C10                                             -/
/- ------------------------------------------------------------------ -/

/-- Claim C8: from_size_align is claimed to fail whenever rounding size
up to align overflows the machine word.  Evaluating the source at
size = usize::MAX, align = 2 shows it returns Ok with exactly those
fields, although the rounded-up size (usize::MAX + 1) overflows: the
literal guard `size > usize::MAX` is vacuous, so the overflow case of
the claim is never detected. -/
theorem c8_from_size_align_eval :
    Layout.from_size_align usize_max 2 = some ⟨usize_max, 2⟩
    ∧ usize_max < align_up usize_max 2 := by
  constructor
  · decide
  · show (2 : Nat) ^ 64 - 1 < ((2 ^ 64 - 1) + 2 - 1) / 2 * 2
    norm_num

/-- Claim C10 counterexample: the claim asserts every entry whose valid
bit is clear is reported as a branch.  The entry with bit pattern 2
(Read bit set, valid bit clear) is invalid yet is_branch returns false
for it, because is_branch only negates is_leaf and never consults the
valid bit. -/
theorem c10_counterexample :
    Entry.is_valid ⟨2⟩ = false ∧ Entry.is_branch ⟨2⟩ = false := by
  decide

/-- Claim C10 (amended): for every 64-bit entry pattern, is_branch
returns exactly the negation of is_leaf, so no entry is classified as
both branch and leaf and every entry is classified as one of the two;
an entry whose valid bit is clear is still reported as a branch
provided none of its R/W/X bits is set (validity is never consulted). -/
theorem c10_branch_is_not_leaf (e : Entry) :
    Entry.is_branch e = !(Entry.is_leaf e)
    ∧ ¬(Entry.is_branch e = true ∧ Entry.is_leaf e = true)
    ∧ (Entry.is_branch e = true ∨ Entry.is_leaf e = true)
    ∧ (e.entry &&& 0xe = 0 → Entry.is_branch e = true) := by
  refine ⟨rfl, ?_, ?_, ?_⟩
  · intro h
    have h1 := h.1
    have h2 := h.2
    simp [Entry.is_branch, h2] at h1
  · by_cases h : Entry.is_leaf e = true
    · exact Or.inr h
    · exact Or.inl (by simp [Entry.is_branch, h])
  · intro h
    simp [Entry.is_branch, Entry.is_leaf, h]

/-- Witness for C10's amended theorem: the all-zero (invalid) entry is
reported as a branch. -/
theorem c10_branch_is_not_leaf_witness : Entry.is_branch ⟨0⟩ = true :=
  (c10_branch_is_not_leaf ⟨0⟩).2.2.2 (by decide)

/- ------------------------------------------------------------------ -/
/- Buddy heap (src/src/allocations/heap.rs; the copy under             -/
/- src/allocations/heap.rs has identical allocation_size and           -/
/- order_size)                                                         -/
/- ------------------------------------------------------------------ -/

/-- The fixed base alignment of the heap (heap.rs line 22). -/
def MIN_HEAP_ALIGN : Nat := 4096

/-- The heap bookkeeping structure (heap.rs lines 56-94).  Addresses are
Nat; each intrusive free list (head pointer plus in-block next chain,
null-terminated) is modelled as the list of block addresses in chain
order. -/
structure Heap where
  heap_base : Nat
  heap_size : Nat
  free_lists : List (List Nat)
  min_block_size : Nat
  min_block_size_log2 : Nat
deriving DecidableEq

/-- Heap::allocation_size (heap.rs lines 158-193), translated literally:
reject non-power-of-two alignments, reject align above MIN_HEAP_ALIGN,
raise size to align, raise to min_block_size, round up to the next
power of two, reject results above heap_size. -/
def Heap.allocation_size (h : Heap) (l : Layout) : Option Nat :=
  if !(is_po2 l.align) then none
  else if MIN_HEAP_ALIGN < l.align then none
  else
    let size1 := if l.size < l.align then l.align else l.size
    let size2 := max size1 h.min_block_size
    let size3 := next_po2 size2
    if h.heap_size < size3 then none
    else some size3

/-- Heap::allocation_order (heap.rs lines 198-203).  The source calls it
with the raw pair (size, align) in two places; those call sites are
modelled by passing the corresponding Layout. -/
def Heap.allocation_order (h : Heap) (l : Layout) : Option Nat :=
  (h.allocation_size l).map (fun s => log2 s - h.min_block_size_log2)

/-- Heap::order_size, translated literally from heap.rs lines 206-209
(both copies): the source computes 1 >> (min_block_size_log2 + order). -/
def Heap.order_size (h : Heap) (order : Nat) : Nat :=
  1 >>> (h.min_block_size_log2 + order)

/-- Heap::free_list_pop (heap.rs lines 212-221): take the head block of
the order's chain, advancing the head to its next pointer. -/
def Heap.free_list_pop (h : Heap) (order : Nat) : Option (Nat × Heap) :=
  match h.free_lists.getD order [] with
  | [] => none
  | candidate :: rest =>
    some (candidate, { h with free_lists := h.free_lists.set order rest })

/-- Heap::free_list_insert (heap.rs lines 224-229): write a header in the
block pointing at the old head and make the block the new head. -/
def Heap.free_list_insert (h : Heap) (order block : Nat) : Heap :=
  { h with free_lists := h.free_lists.set order (block :: h.free_lists.getD order []) }

/-- The loop body of Heap::split_free_block (heap.rs lines 274-289):
while order exceeds order_needed, halve size_to_split, step order down,
and insert the upper half at the new order.  The recursion is on the
order counter, which the loop decrements to order_needed. -/
def splitGo (block order_needed : Nat) : Nat → Nat → Heap → Heap
  | 0, _, h => h
  | o + 1, size_to_split, h =>
    if order_needed ≤ o then
      splitGo block order_needed o (size_to_split >>> 1)
        (h.free_list_insert o (block + (size_to_split >>> 1)))
    else h

/-- Heap::split_free_block (heap.rs lines 274-289): start from the size
of the popped block as computed by order_size and cut it down. -/
def Heap.split_free_block (h : Heap) (block order order_needed : Nat) : Heap :=
  splitGo block order_needed order (h.order_size order) h

/-- The scan loop of Heap::allocate (heap.rs lines 309-324): walk the
orders upward, pop the first non-empty free list, split if the popped
block is too big, and return its address. -/
def allocScanGo (order_needed : Nat) : List Nat → Heap → Heap × Option Nat
  | [], h => (h, none)
  | order :: rest, h =>
    match h.free_list_pop order with
    | some (block, h1) =>
      (if order_needed < order then h1.split_free_block block order order_needed else h1,
       some block)
    | none => allocScanGo order_needed rest h

/-- Heap::allocate (heap.rs lines 300-332): compute the needed order from
the layout and scan orders order_needed .. free_lists.len(); a none
result models the AllocError return. -/
def Heap.allocate (h : Heap) (l : Layout) : Heap × Option Nat :=
  match h.allocation_order l with
  | some order_needed =>
    allocScanGo order_needed
      (List.range' order_needed (h.free_lists.length - order_needed)) h
  | none => (h, none)

/-- Heap::new (heap.rs lines 100-150): min_block_size is heap_size
shifted down by the number of extra lists, the free lists start empty,
and the whole heap is inserted as one block at the order computed for a
heap_size/align-1 request.  The source's assertions all hold for the
configurations evaluated below; its expect on the order computation is
modelled by the none branch returning the unfilled heap. -/
def Heap.new (heap_base heap_size num_lists : Nat) : Heap :=
  let min_block_size := heap_size >>> (num_lists - 1)
  let h : Heap :=
    ⟨heap_base, heap_size, List.replicate num_lists [], min_block_size, log2 min_block_size⟩
  match h.allocation_order ⟨heap_size, 1⟩ with
  | some order => h.free_list_insert order heap_base
  | none => h

/-- Membership of a point in the byte interval of given base and length. -/
def interval_contains (base len x : Nat) : Bool := base ≤ x && x < base + len

/-- How many blocks reachable from the free lists contain the byte x,
counting a block at order k with its nominal size min_block_size * 2^k. -/
def free_cover (h : Heap) (x : Nat) : Nat :=
  ((List.range h.free_lists.length).map
    (fun k =>
      ((h.free_lists.getD k []).filter
        (fun b => interval_contains b (h.min_block_size <<< k) x)).length)).sum

/-- How many currently-allocated blocks (address, size pairs) contain x. -/
def alloc_cover (blocks : List (Nat × Nat)) (x : Nat) : Nat :=
  (blocks.filter (fun p => interval_contains p.1 p.2 x)).length

/-- The spec's 64 KiB, 5-order demonstration heap (min block 4 KiB),
based at 65536 (4096-aligned, nonzero, as Heap::new asserts). -/
def demoHeap : Heap := Heap.new 65536 65536 5

/-- The demonstration heap after one allocate of a 1 KiB, align-1 layout
(which normalizes to 4096 bytes, order 0). -/
def demoAlloc : Heap × Option Nat := demoHeap.allocate ⟨1024, 1⟩

/-- Claim C4: order_size is claimed to return min_block_size shifted
left by the order.  On the demonstration heap (min_block_size 4096,
log2 12) the source returns 1 >> 12 = 0 at order 0 and 0 at order 1,
not the claimed 4096 and 8192: the source shifts the wrong way and
starts from 1 instead of min_block_size. -/
theorem c4_order_size_eval :
    demoHeap.min_block_size = 4096
    ∧ demoHeap.min_block_size_log2 = 12
    ∧ demoHeap.order_size 0 = 0
    ∧ demoHeap.order_size 1 = 0
    ∧ demoHeap.min_block_size <<< 0 = 4096 := by
  decide

/-- Claim C5: allocation_size returns none exactly when the alignment is
not a power of two, or exceeds MIN_HEAP_ALIGN, or the normalized size
next_po2 (max size align min_block_size) exceeds heap_size; otherwise
it returns exactly that normalized size.  The right-hand side is an
explicit function of the Layout and the heap's fixed configuration
only, so the result is identical at allocation and deallocation time. -/
theorem c5_allocation_size_deterministic (h : Heap) (l : Layout) :
    (h.allocation_size l = none ↔
      (is_po2 l.align = false ∨ MIN_HEAP_ALIGN < l.align ∨
        h.heap_size < next_po2 (max (max l.size l.align) h.min_block_size)))
    ∧ h.allocation_size l =
        (if is_po2 l.align = true ∧ l.align ≤ MIN_HEAP_ALIGN ∧
            next_po2 (max (max l.size l.align) h.min_block_size) ≤ h.heap_size
         then some (next_po2 (max (max l.size l.align) h.min_block_size))
         else none) := by
  have hmax : (if l.size < l.align then l.align else l.size) = max l.size l.align := by
    by_cases hls : l.size < l.align
    · simp [hls, Nat.max_eq_right (Nat.le_of_lt hls)]
    · simp [hls, Nat.max_eq_left (Nat.le_of_not_lt hls)]
  have key : h.allocation_size l =
      (if is_po2 l.align = true ∧ l.align ≤ MIN_HEAP_ALIGN ∧
          next_po2 (max (max l.size l.align) h.min_block_size) ≤ h.heap_size
       then some (next_po2 (max (max l.size l.align) h.min_block_size))
       else none) := by
    simp only [Heap.allocation_size, hmax]
    by_cases h1 : is_po2 l.align = true
    · by_cases h2 : l.align ≤ MIN_HEAP_ALIGN
      · by_cases h3 : next_po2 (max (max l.size l.align) h.min_block_size) ≤ h.heap_size
        · simp [h1, h2, h3, Nat.not_lt.mpr h2, Nat.not_lt.mpr h3]
        · simp [h1, h2, h3, Nat.not_lt.mpr h2, Nat.lt_of_not_le h3]
      · simp [h1, h2, Nat.lt_of_not_le h2]
    · simp [Bool.of_not_eq_true h1]
  refine ⟨?_, key⟩
  rw [key]
  constructor
  · intro hnone
    by_cases h1 : is_po2 l.align = true
    · by_cases h2 : l.align ≤ MIN_HEAP_ALIGN
      · by_cases h3 : next_po2 (max (max l.size l.align) h.min_block_size) ≤ h.heap_size
        · simp [h1, h2, h3] at hnone
        · exact Or.inr (Or.inr (Nat.lt_of_not_le h3))
      · exact Or.inr (Or.inl (Nat.lt_of_not_le h2))
    · exact Or.inl (Bool.of_not_eq_true h1)
  · intro hcases
    rcases hcases with hp | ha | hs
    · simp [hp]
    · rw [if_neg]
      rintro ⟨-, h2, -⟩
      omega
    · rw [if_neg]
      rintro ⟨-, -, h3⟩
      omega

/-- Claim C2: the conservation invariant is claimed after every call.
On the demonstration heap, a single allocate of a 1 KiB layout returns
the block at 65536, yet afterwards the byte at 65536 lies inside the
allocated block and inside four blocks still reachable from the free
lists (orders 0-3 all hold the address 65536, because the splitting
loop works with a block size of 0), and the byte at 98304 inside the
heap range is covered by nothing at all: the free and allocated blocks
neither are disjoint nor reconstruct the heap range. -/
theorem c2_conservation_eval :
    demoAlloc.2 = some 65536
    ∧ free_cover demoAlloc.1 65536 + alloc_cover [(65536, 4096)] 65536 = 5
    ∧ free_cover demoAlloc.1 98304 + alloc_cover [(65536, 4096)] 98304 = 0 := by
  decide

/-- Claim C6: allocate is claimed to insert each unused upper half one
order below the half being split.  On the demonstration heap the
order-4 block at 65536 is popped for an order-0 request; the upper half
of the first split is 65536 + 32768 = 98304, but the free list at
order 3 ends up holding 65536 itself (order_size returned 0, so every
"upper half" collapses onto the block's own address). -/
theorem c6_allocate_split_eval :
    demoAlloc.2 = some 65536
    ∧ demoAlloc.1.free_lists.getD 3 [] = [65536]
    ∧ demoAlloc.1.free_lists.getD 3 [] ≠ [98304] := by
  decide

/- ------------------------------------------------------------------ -/
/- Page-frame allocator and page tables (src/allocations/paging.rs)    -/
/- ------------------------------------------------------------------ -/

/-- Page::is_taken (paging.rs lines 201-204); PageFlags::Taken = 1. -/
def page_is_taken (flags : Nat) : Bool := flags &&& 1 != 0

/-- Page::is_last (paging.rs lines 193-196); PageFlags::Last = 2. -/
def page_is_last (flags : Nat) : Bool := flags &&& 2 != 0

/-- Page::is_free (paging.rs lines 209-212). -/
def page_is_free (flags : Nat) : Bool := !page_is_taken flags

/-- Page::set_flag (paging.rs lines 228-231) on a frame table modelled as
a map from page index to flag byte. -/
def page_set_flag (ft : Nat → Nat) (i flag : Nat) : Nat → Nat :=
  fun j => if j = i then ft i ||| flag else ft j

namespace paging

/-- The found test of the allocate scan (paging.rs lines 51-71): the
candidate start page is free and none of the pages i .. i+pages-1 is
taken. -/
def found_at (ft : Nat → Nat) (i pages : Nat) : Bool :=
  page_is_free (ft i) && (List.range' i pages).all (fun j => !page_is_taken (ft j))

/-- The scan loop of allocate (paging.rs lines 50-90).  On success the
source marks the range k in i .. i - pages - 1 as Taken — a range that
is empty whenever i ≥ pages + 1 (and underflows, aborting a checked
build, otherwise; truncating Nat subtraction gives the same empty range
in the cases evaluated below) — then marks page i + pages - 1 Taken and
Last and returns the run's start index. -/
def alloc_scan (pages : Nat) : List Nat → (Nat → Nat) → ((Nat → Nat) × Option Nat)
  | [], ft => (ft, none)
  | i :: rest, ft =>
    if found_at ft i pages then
      let ft1 := (List.range' i ((i - pages - 1) - i)).foldl
        (fun acc k => page_set_flag acc k 1) ft
      let ft2 := page_set_flag ft1 (i + pages - 1) 1
      let ft3 := page_set_flag ft2 (i + pages - 1) 2
      (ft3, some i)
    else alloc_scan pages rest ft

/-- allocate (paging.rs lines 43-95): first-fit scan of the frame table
over start indices 0 .. num_pages - pages, returning the address
ALLOC_START + PAGE_SIZE * i of the first fitting run, or none (the
source's null pointer) when the scan finds nothing. -/
def allocate (ft : Nat → Nat) (num_pages pages alloc_start : Nat) :
    ((Nat → Nat) × Option Nat) :=
  let r := alloc_scan pages (List.range (num_pages - pages)) ft
  (r.1, r.2.map (fun i => alloc_start + 4096 * i))

end paging

/-- A page table: 512 entries (paging.rs lines 332-335), modelled as the
entry at each index; only indices 0 .. 511 are ever consulted. -/
structure Table where
  entries : Nat → Entry

/-- Overwrite one entry of a table. -/
def Table.set (t : Table) (i : Nat) (e : Entry) : Table :=
  ⟨fun j => if j = i then e else t.entries j⟩

/-- The all-invalid table a freshly zeroed page holds. -/
def zeroTable : Table := ⟨fun _ => ⟨0⟩⟩

/-- Physical memory viewed as page tables: contents of the table stored
at each page-aligned base address. -/
def mem_set (mem : Nat → Table) (a : Nat) (t : Table) : Nat → Table :=
  fun b => if b = a then t else mem b

/-- Memory in which every page reads as zero. -/
def zero_mem : Nat → Table := fun _ => zeroTable

/-- The child-table base address stored in a branch entry: the source
computes (entry & !0x3ff) << 2 on the 64-bit entry in map, unmap and
virt_to_phys alike (paging.rs lines 456, 498, 558). -/
def child_address (v : Entry) : Nat := ((v.entry &&& u64not 0x3ff) <<< 2) % U64MOD

/-- The i-th virtual-page-number field of a virtual address as
virt_to_phys extracts it (paging.rs lines 527-534): nine bits starting
at bit 12 + 9i. -/
def vpn_field (vaddr i : Nat) : Nat := (vaddr >>> (12 + 9 * i)) &&& 0x1ff

/-- The page-offset mask for a leaf found at level i (paging.rs
line 547). -/
def off_mask (i : Nat) : Nat := (1 <<< (12 + i * 9)) - 1

/-- The physical address virt_to_phys assembles from a leaf entry at
level i (paging.rs lines 547-551): the entry's frame bits (entry
shifted left by two within 64 bits, page-offset bits masked off)
combined with the page-offset bits of the virtual address. -/
def leaf_value (v : Entry) (vaddr i : Nat) : Nat :=
  (((v.entry <<< 2) % U64MOD) &&& u64not (off_mask i)) ||| (vaddr &&& off_mask i)

/-- The loop of virt_to_phys (paging.rs lines 538-563), by recursion on
the level counter i = 2, 1, 0.  The outer Option models the source
aborting rather than returning: when a valid non-leaf entry is reached
at level 0 the source indexes vpn[0 - 1], an out-of-bounds access, so
that case yields none; some none is the source's None (page fault),
some (some a) the source's Some(address). -/
def walk (mem : Nat → Table) (vaddr : Nat) : Nat → Entry → Option (Option Nat)
  | 0, v =>
    if v.is_invalid then some none
    else if v.is_leaf then some (some (leaf_value v vaddr 0))
    else none
  | i + 1, v =>
    if v.is_invalid then some none
    else if v.is_leaf then some (some (leaf_value v vaddr (i + 1)))
    else walk mem vaddr i ((mem (child_address v)).entries (vpn_field vaddr i))

namespace paging

/-- virt_to_phys (paging.rs lines 524-568): start the walk at the root
table's entry for the top virtual-page-number field. -/
def virt_to_phys (mem : Nat → Table) (root : Table) (vaddr : Nat) : Option (Option Nat) :=
  walk mem vaddr 2 (root.entries (vpn_field vaddr 2))

end paging

/-- State threaded through map: the table contents of physical memory
plus a fresh-page oracle standing in for allocate_zeroed(1).  The
oracle hands out consecutive page-aligned addresses from alloc_start
and zero-fills each page; the frame allocator's own marking defect is
settled separately (claim C3), and this reading is the one most
favourable to the mapping claim. -/
structure MapState where
  mem : Nat → Table
  next : Nat
  alloc_start : Nat

/-- The fresh zero-filled page supplier modelling allocate_zeroed(1) as
called from map (paging.rs line 444). -/
def fresh_zeroed_page (st : MapState) : Nat × MapState :=
  (st.alloc_start + 4096 * st.next,
   ⟨mem_set st.mem (st.alloc_start + 4096 * st.next) zeroTable, st.next + 1, st.alloc_start⟩)

/-- The three fields map extracts at its top (paging.rs lines 418-425).
The source names the array vpn but computes every field from PADDR,
with a 26-bit mask on the top field; the leaf-entry expression later
reads the same three values under the undefined name ppn, which this
model reads as this array — the only array in scope. -/
def ppn_fields (paddr i : Nat) : Nat :=
  if i = 0 then (paddr >>> 12) &&& 0x1ff
  else if i = 1 then (paddr >>> 21) &&& 0x1ff
  else (paddr >>> 30) &&& 0x3ffffff

namespace paging

/-- One iteration of map's descent loop (paging.rs lines 441-458): if
the current entry is invalid, obtain a zeroed page and install it as a
valid branch entry (frame address shifted right two places, valid bit
OR'd in); then step to the child table's entry at the given index.
The current position is a (table address, entry index) pair. -/
def map_step (st : MapState) (cur : Nat × Nat) (next_index : Nat) :
    MapState × (Nat × Nat) :=
  let e := (st.mem cur.1).entries cur.2
  let stv : MapState × Entry :=
    if e.is_valid then (st, e)
    else
      let pr := fresh_zeroed_page st
      let enew : Entry := ⟨(pr.1 >>> 2) ||| 1⟩
      (⟨mem_set pr.2.mem cur.1 (Table.set (pr.2.mem cur.1) cur.2 enew),
        pr.2.next, pr.2.alloc_start⟩, enew)
  (stv.1, (child_address stv.2, next_index))

/-- map's descent loop over the levels i = 1, 0 (for start level 0),
each iteration descending by the i-th extracted field (paging.rs
lines 441-458). -/
def map_loop (paddr : Nat) : List Nat → MapState → (Nat × Nat) → MapState × (Nat × Nat)
  | [], st, cur => (st, cur)
  | i :: rest, st, cur =>
    let r := map_step st cur (ppn_fields paddr i)
    map_loop paddr rest r.1 r.2

/-- map (paging.rs lines 407-476).  The walk starts at the root table's
entry indexed by the top extracted field of PADDR (not of vaddr —
vaddr is never used), descends through levels 2-l .. 1, and finally
writes the leaf entry (ppn[2] << 28) | (ppn[1] << 19) | (ppn[0] << 10)
| bits | Valid | Dirty | Access at the position reached.  The root
table lives in memory at root_addr, modelling the source's mutable
reference. -/
def map (st : MapState) (root_addr vaddr paddr bits level : Nat) : MapState :=
  let start : Nat × Nat := (root_addr, ppn_fields paddr 2)
  let r := map_loop paddr ((List.range' level (2 - level)).reverse) st start
  let leaf : Entry :=
    ⟨(ppn_fields paddr 2 <<< 28) ||| (ppn_fields paddr 1 <<< 19) |||
      (ppn_fields paddr 0 <<< 10) ||| bits ||| 1 ||| 128 ||| 64⟩
  ⟨mem_set r.1.mem r.2.1 (Table.set (r.1.mem r.2.1) r.2.2 leaf), r.1.next, r.1.alloc_start⟩

/-- unmap (paging.rs lines 492-516), returning the addresses passed to
deallocate in order.  For each valid branch entry of the root, the
source reads the level-1 table and, for each valid branch entry in it,
computes the level-0 table's address into a local that is never used —
no level-0 table is ever freed — then frees the level-1 table.  The
root's own storage is never freed. -/
def unmap (mem : Nat → Table) (root : Table) : List Nat :=
  (List.range 512).foldl
    (fun freed lv2 =>
      let entry_lv2 := root.entries lv2
      if entry_lv2.is_valid && entry_lv2.is_branch then
        let memaddr_lv1 := child_address entry_lv2
        let table_lv1 := mem memaddr_lv1
        let _ := (List.range 512).map (fun lv1 =>
          let entry_lv1 := table_lv1.entries lv1
          if entry_lv1.is_valid && entry_lv1.is_branch then
            child_address entry_lv1
          else 0)
        freed ++ [memaddr_lv1]
      else freed)
    []

end paging

/-- A frame table of 8 pages in which pages 0 and 1 are Taken and page 2
is Taken and Last (one prior 3-page allocation); pages 3 .. 7 are
Empty. -/
def c3_frame_table : Nat → Nat :=
  fun i => if i = 0 then 1 else if i = 1 then 1 else if i = 2 then 3 else 0

/-- The frame allocator evaluated on that table for a 2-page request
(ALLOC_START modelled as 0x80000000). -/
def c3_result : ((Nat → Nat) × Option Nat) :=
  paging.allocate c3_frame_table 8 2 0x80000000

/-- Claim C3: when a run of n free pages starting at index i is found,
all n pages are claimed to be marked Taken.  The scan correctly finds
the run at i = 3 and returns ALLOC_START + PAGE_SIZE * 3, and marks the
last page (index 4) Taken and Last, but page 3 — the very page whose
address is returned — is left Empty: the marking loop iterates over
the empty range i .. i - pages - 1 instead of i .. i + pages - 1.
(The source's own deallocate would immediately flag this block as a
double free, since its first page is not taken.) -/
theorem c3_allocate_eval :
    c3_result.2 = some (0x80000000 + 4096 * 3)
    ∧ page_is_taken (c3_result.1 3) = false
    ∧ page_is_taken (c3_result.1 4) = true
    ∧ page_is_last (c3_result.1 4) = true := by
  decide

/-- Clearing the low k bits of a 64-bit value with the complement mask
equals rounding down to a multiple of 2 ^ k. -/
theorem land_high_bits (x k : Nat) (hx : x < 2 ^ 64) (hk : k ≤ 64) :
    x &&& (2 ^ 64 - 2 ^ k) = x / 2 ^ k * 2 ^ k := by
  apply Nat.eq_of_testBit_eq
  intro j
  have hdiv : x / 2 ^ k * 2 ^ k = (x >>> k) <<< k := by
    rw [Nat.shiftRight_eq_div_pow, Nat.shiftLeft_eq]
  have hone : (1 : Nat) ≤ 2 ^ k := Nat.one_le_two_pow
  have hm : (2 : Nat) ^ 64 - 2 ^ k = 2 ^ 64 - ((2 ^ k - 1) + 1) := by omega
  have hlt : (2 : Nat) ^ k - 1 < 2 ^ 64 := by
    have h2 : (2 : Nat) ^ k ≤ 2 ^ 64 := Nat.pow_le_pow_right (by norm_num) hk
    omega
  rw [hdiv, Nat.testBit_and, hm, Nat.testBit_two_pow_sub_succ hlt,
    Nat.testBit_two_pow_sub_one, Nat.testBit_shiftLeft, Nat.testBit_shiftRight]
  by_cases hj64 : j < 64
  · by_cases hjk : j < k
    · simp [hjk, Nat.not_le.mpr hjk]
    · have hge : j ≥ k := Nat.not_lt.mp hjk
      have hjeq : k + (j - k) = j := by omega
      simp [hj64, hjk, hge, hjeq]
  · have hxj : x.testBit j = false := by
      apply Nat.testBit_eq_false_of_lt
      calc x < 2 ^ 64 := hx
        _ ≤ 2 ^ j := Nat.pow_le_pow_right (by norm_num) (Nat.not_lt.mp hj64)
    have hgek : j ≥ k := by omega
    have hjeq : k + (j - k) = j := by omega
    simp [hj64, hxj, hjeq]

/-- The address a leaf found at level i ≤ 2 translates to: the entry's
frame bits rounded down to the level's page size, plus-combined with
the low 12 + 9i bits of the virtual address. -/
theorem leaf_value_eq (v : Entry) (vaddr i : Nat) (hi : i ≤ 2) :
    leaf_value v vaddr i =
      (((v.entry <<< 2) % U64MOD) / 2 ^ (12 + 9 * i) * 2 ^ (12 + 9 * i))
        ||| (vaddr % 2 ^ (12 + 9 * i)) := by
  unfold leaf_value off_mask u64not usize_max U64MOD
  have h1 : ((1 : Nat) <<< (12 + i * 9)) = 2 ^ (12 + 9 * i) := by
    rw [Nat.one_shiftLeft, Nat.mul_comm]
  rw [h1]
  have hone : (1 : Nat) ≤ 2 ^ (12 + 9 * i) := Nat.one_le_two_pow
  have hmask : ((2 : Nat) ^ 64 - 1 - (2 ^ (12 + 9 * i) - 1)) = 2 ^ 64 - 2 ^ (12 + 9 * i) := by
    omega
  rw [hmask,
    land_high_bits _ _ (Nat.mod_lt _ (by norm_num)) (by omega),
    Nat.and_pow_two_sub_one_eq_mod]

/-- Claim C9: virt_to_phys starts the walk at the root's entry for the
top virtual-page-number field; at every level i ≤ 2 an invalid entry
makes the walk return no-mapping; a leaf entry at level i returns the
leaf's frame-address bits (its entry shifted left two places within
64 bits, rounded down to a multiple of 2^(12+9i)) combined with the
low 12 + 9i bits of vaddr; and a valid branch entry descends into the
child table at the next-lower virtual-page-number field. -/
theorem c9_virt_to_phys_walk (mem : Nat → Table) (root : Table) (vaddr i : Nat)
    (v : Entry) (hi : i ≤ 2) :
    paging.virt_to_phys mem root vaddr = walk mem vaddr 2 (root.entries (vpn_field vaddr 2))
    ∧ (v.is_valid = false → walk mem vaddr i v = some none)
    ∧ (v.is_valid = true → v.is_leaf = true →
        walk mem vaddr i v = some (some
          ((((v.entry <<< 2) % U64MOD) / 2 ^ (12 + 9 * i) * 2 ^ (12 + 9 * i))
            ||| (vaddr % 2 ^ (12 + 9 * i)))))
    ∧ (v.is_valid = true → v.is_leaf = false → 1 ≤ i →
        walk mem vaddr i v =
          walk mem vaddr (i - 1) ((mem (child_address v)).entries (vpn_field vaddr (i - 1)))) := by
  refine ⟨rfl, ?_, ?_, ?_⟩
  · intro hv
    cases i <;> simp [walk, Entry.is_invalid, hv]
  · intro hv hl
    have hw : walk mem vaddr i v = some (some (leaf_value v vaddr i)) := by
      cases i <;> simp [walk, Entry.is_invalid, hv, hl]
    rw [hw, leaf_value_eq v vaddr i hi]
  · intro hv hl hge
    cases i with
    | zero => omega
    | succ i2 => simp [walk, Entry.is_invalid, hv, hl]

/-- Witness for C9: on all-zero memory, the walk at level 0 on the
all-zero (invalid) entry reports no mapping. -/
theorem c9_virt_to_phys_walk_witness : walk zero_mem 0 0 ⟨0⟩ = some none :=
  (c9_virt_to_phys_walk zero_mem zeroTable 0 0 ⟨0⟩ (by decide)).2.1 (by decide)

/-- The initial state of the round-trip scenario: an all-invalid root
table at 0x80100000, zeroed memory, fresh pages handed out from
0x80200000. -/
def c1_state : MapState := ⟨zero_mem, 0, 0x80200000⟩

/-- The state after map(root, vaddr = 0x1000, paddr = 0x80001000,
bits = Read|Write = 6, level = 0). -/
def c1_mapped : MapState := paging.map c1_state 0x80100000 0x1000 0x80001000 6 0

/-- Claim C1: the round trip is claimed to return Some 0x80001000.  The
source's map never reads vaddr: every index it walks is extracted from
PADDR (fields [2, 0, 1] for 0x80001000), so the leaf lands at path
root[2] -> [0] -> [1] while virt_to_phys walks vaddr 0x1000's path
root[0] and finds the untouched invalid entry: the translation reports
no mapping (some none) instead of Some 0x80001000.  The last two
conjuncts exhibit where the mapping actually went. -/
theorem c1_round_trip_eval :
    paging.virt_to_phys c1_mapped.mem (c1_mapped.mem 0x80100000) 0x1000 = some none
    ∧ (c1_mapped.mem 0x80100000).entries 0 = ⟨0⟩
    ∧ Entry.is_leaf ((c1_mapped.mem 0x80201000).entries 1) = true := by
  decide

/-- A root table whose entry 0 is a valid branch to the level-1 table at
0x80200000. -/
def c7_root : Table := Table.set zeroTable 0 ⟨(0x80200000 >>> 2) ||| 1⟩

/-- Memory in which the level-1 table at 0x80200000 has entry 0 a valid
branch to the level-0 table at 0x80201000. -/
def c7_mem : Nat → Table :=
  mem_set zero_mem 0x80200000 (Table.set zeroTable 0 ⟨(0x80201000 >>> 2) ||| 1⟩)

/-- Claim C7: unmap is claimed to free every child table reachable
through branch entries at both upper levels.  On a tree with one
level-1 table (0x80200000) holding one branch to a level-0 table
(0x80201000), the source frees exactly the level-1 table: the level-0
table's address is computed into an unused local and never passed to
deallocate.  The root is indeed never freed (no freed address is the
root's), but the claim's both-levels part fails. -/
theorem c7_unmap_eval :
    paging.unmap c7_mem c7_root = [0x80200000]
    ∧ ¬(0x80201000 ∈ paging.unmap c7_mem c7_root) := by
  decide
